import Mathlib

set_option linter.unusedVariables false

/-!
Shallow embedding of the vllm-loader supervisor core, translated from the
TypeScript sources `src/lib/port-manager.ts`, `src/lib/process-manager.ts`,
`src/lib/vllm-config.ts` and `src/lib/download-manager.ts`, together with
theorems settling the behavioural claims about it.
-/

/-! ## Port manager (port-manager.ts) -/

/-- Constant BASE_PORT from port-manager.ts. -/
def BASE_PORT : Nat := 8000

/-- Constant MAX_PORT from port-manager.ts. -/
def MAX_PORT : Nat := 8100

/-- The PortManager state: its private `usedPorts : Set<number>`. -/
structure PortManager where
  usedPorts : Finset Nat
deriving DecidableEq

/-- Method isAvailable of port-manager.ts: the port is not in the used set and
lies inside the inclusive range. -/
def PortManager.isAvailable (pm : PortManager) (port : Nat) : Bool :=
  decide (port ∉ pm.usedPorts) && decide (BASE_PORT ≤ port) && decide (port ≤ MAX_PORT)

/-- The ascending for-loop inside allocate: starting at `p`, try `fuel`
consecutive ports and return the first one absent from `used`. -/
def findFreePort (used : Finset Nat) : Nat → Nat → Option Nat
  | _, 0 => none
  | p, fuel + 1 => if p ∈ used then findFreePort used (p + 1) fuel else some p

/-- Method allocate of port-manager.ts: scan the range `[BASE_PORT, MAX_PORT]`
in ascending order for the first unused port, add it to the used set and return
it; `none` models the thrown "No available ports in range" error. -/
def PortManager.allocate (pm : PortManager) : Option (Nat × PortManager) :=
  match findFreePort pm.usedPorts BASE_PORT (MAX_PORT + 1 - BASE_PORT) with
  | some p => some (p, ⟨insert p pm.usedPorts⟩)
  | none => none

/-- Method release of port-manager.ts: `usedPorts.delete(port)`. -/
def PortManager.release (pm : PortManager) (port : Nat) : PortManager :=
  ⟨pm.usedPorts.erase port⟩

/-- Method reserve of port-manager.ts: add the port only when isAvailable,
reporting whether it did. -/
def PortManager.reserve (pm : PortManager) (port : Nat) : PortManager × Bool :=
  if pm.isAvailable port then (⟨insert port pm.usedPorts⟩, true) else (pm, false)

lemma findFreePort_some {used : Finset Nat} {p fuel q : Nat}
    (h : findFreePort used p fuel = some q) :
    q ∉ used ∧ p ≤ q ∧ q < p + fuel ∧ ∀ r, p ≤ r → r < q → r ∈ used := by
  induction fuel generalizing p with
  | zero => simp [findFreePort] at h
  | succ n ih =>
    rw [findFreePort] at h
    by_cases hp : p ∈ used
    · simp only [hp, if_true] at h
      obtain ⟨h1, h2, h3, h4⟩ := ih h
      refine ⟨h1, by omega, by omega, fun r hr1 hr2 => ?_⟩
      rcases Nat.eq_or_lt_of_le hr1 with rfl | hlt
      · exact hp
      · exact h4 r hlt hr2
    · simp only [hp, if_false, Option.some.injEq] at h
      subst h
      exact ⟨hp, le_rfl, by omega, fun r hr1 hr2 => absurd hr1 (by omega)⟩

lemma findFreePort_none {used : Finset Nat} {p fuel : Nat}
    (h : findFreePort used p fuel = none) :
    ∀ r, p ≤ r → r < p + fuel → r ∈ used := by
  induction fuel generalizing p with
  | zero => intro r h1 h2; omega
  | succ n ih =>
    rw [findFreePort] at h
    by_cases hp : p ∈ used
    · simp only [hp, if_true] at h
      intro r hr1 hr2
      rcases Nat.eq_or_lt_of_le hr1 with rfl | hlt
      · exact hp
      · exact ih h r hlt (by omega)
    · simp [hp] at h

/-- C3: allocate returns the lowest port in `[BASE_PORT, MAX_PORT]` that is not
in the used set, scanning in ascending order; the returned port was free and is
held afterwards (so no later allocation can return it while it stays held, and
in particular the very next allocation returns a different port); allocate
fails only when every port in the range is held. -/
theorem PortManager.allocate_lowest_free (pm : PortManager) :
    (∀ p pm2, pm.allocate = some (p, pm2) →
      p ∉ pm.usedPorts ∧ BASE_PORT ≤ p ∧ p ≤ MAX_PORT ∧
      (∀ q, BASE_PORT ≤ q → q < p → q ∈ pm.usedPorts) ∧
      pm2.usedPorts = insert p pm.usedPorts ∧
      ∀ r pm3, pm2.allocate = some (r, pm3) → r ≠ p) ∧
    (pm.allocate = none → ∀ q, BASE_PORT ≤ q → q ≤ MAX_PORT → q ∈ pm.usedPorts) := by
  constructor
  · intro p pm2 h
    unfold PortManager.allocate at h
    rcases hf : findFreePort pm.usedPorts BASE_PORT (MAX_PORT + 1 - BASE_PORT) with _ | q
    · rw [hf] at h; exact absurd h (by simp)
    · rw [hf] at h
      simp only [Option.some.injEq, Prod.mk.injEq] at h
      have hq : p = q := h.1.symm
      subst hq
      have hpm2 : pm2 = PortManager.mk (insert p pm.usedPorts) := h.2.symm
      subst hpm2
      obtain ⟨h1, h2, h3, h4⟩ := findFreePort_some hf
      refine ⟨h1, h2, by unfold BASE_PORT MAX_PORT at *; omega, h4, rfl, ?_⟩
      intro r pm3 hr
      unfold PortManager.allocate at hr
      rcases hf2 : findFreePort (insert p pm.usedPorts) BASE_PORT (MAX_PORT + 1 - BASE_PORT) with _ | s
      · rw [hf2] at hr; exact absurd hr (by simp)
      · rw [hf2] at hr
        simp only [Option.some.injEq, Prod.mk.injEq] at hr
        have hs : r = s := hr.1.symm
        subst hs
        have := (findFreePort_some hf2).1
        intro hrp
        subst hrp
        exact this (Finset.mem_insert_self r pm.usedPorts)
  · intro h q hq1 hq2
    unfold PortManager.allocate at h
    rcases hf : findFreePort pm.usedPorts BASE_PORT (MAX_PORT + 1 - BASE_PORT) with _ | s
    · exact findFreePort_none hf q hq1 (by unfold BASE_PORT MAX_PORT at *; omega)
    · rw [hf] at h; exact absurd h (by simp)

/-- Witness for C3 at a concrete state: with only 8000 held, allocate hands out
8001, which was free. -/
theorem PortManager.allocate_lowest_free_witness :
    8001 ∉ (PortManager.mk {8000}).usedPorts ∧ BASE_PORT ≤ 8001 ∧ 8001 ≤ MAX_PORT := by
  have h := (PortManager.allocate_lowest_free ⟨{8000}⟩).1 8001 ⟨insert 8001 {8000}⟩ (by decide)
  exact ⟨h.1, h.2.1, h.2.2.1⟩

/-- C9: release is idempotent; releasing an already-free port is not an error
and leaves the used set unchanged, so a double release equals a single one. -/
theorem PortManager.release_idempotent (pm : PortManager) (port : Nat) :
    (pm.release port).release port = pm.release port ∧
    (port ∉ pm.usedPorts → pm.release port = pm) := by
  constructor
  · show PortManager.mk _ = PortManager.mk _
    rw [PortManager.mk.injEq]
    exact Finset.erase_idem
  · intro h
    show PortManager.mk _ = pm
    have : pm.usedPorts.erase port = pm.usedPorts := Finset.erase_eq_of_not_mem h
    calc PortManager.mk (pm.usedPorts.erase port) = PortManager.mk pm.usedPorts := by rw [this]
      _ = pm := rfl

/-- Witness for C9 at a concrete state where the port is already free. -/
theorem PortManager.release_idempotent_witness :
    ((PortManager.mk {8005}).release 8000).release 8000 = (PortManager.mk {8005}).release 8000 ∧
    (PortManager.mk {8005}).release 8000 = PortManager.mk {8005} :=
  ⟨(PortManager.release_idempotent ⟨{8005}⟩ 8000).1,
   (PortManager.release_idempotent ⟨{8005}⟩ 8000).2 (by decide)⟩

/-! ## Process manager (process-manager.ts) -/

/-- The ProcessStatus union type from types (starting, running, stopping,
stopped, error). -/
inductive ProcessStatus
  | starting
  | running
  | stopping
  | stopped
  | error
deriving DecidableEq

/-- The persisted part of a VLLMProcess record used by the lifecycle
operations: id, bound port, status, stop timestamp and last error message.
Timestamps are modeled as natural-number clock readings. -/
structure ProcInfo where
  id : String
  port : Nat
  status : ProcessStatus
  stoppedAt : Option Nat := none
  error : Option String := none
deriving DecidableEq

/-- The ProcessManager state touched by updateStatus / saveState /
removeProcess: the record map (as a list keyed by `ProcInfo.id`), the port
allocator, and the contents of the durable state file written by saveState. -/
structure PMState where
  processes : List ProcInfo
  ports : PortManager
  persisted : List ProcInfo
deriving DecidableEq

/-- The `if (error) managed.info.error = error` line of updateStatus: the
message is stored only when present and non-empty (JS truthiness). -/
def applyErr (err : Option String) (p : ProcInfo) : ProcInfo :=
  match err with
  | some m => if m = "" then p else { p with error := some m }
  | none => p

/-- The terminal-status branch of updateStatus: stamp stoppedAt when the new
status is stopped or error. -/
def applyTerminal (status : ProcessStatus) (now : Nat) (p : ProcInfo) : ProcInfo :=
  if status = .stopped ∨ status = .error then { p with stoppedAt := some now } else p

/-- Method updateStatus of process-manager.ts: look the record up; set its
status; set its error message when a non-empty one is given; when the new
status is stopped or error, stamp stoppedAt and release the port; then
saveState (persist the full record set). A missing id is a no-op. -/
def PMState.updateStatus (s : PMState) (processId : String) (status : ProcessStatus)
    (err : Option String) (now : Nat) : PMState :=
  match s.processes.find? (fun p => p.id = processId) with
  | none => s
  | some managed =>
    let info3 := applyTerminal status now (applyErr err { managed with status := status })
    let ports := if status = .stopped ∨ status = .error then
        s.ports.release managed.port else s.ports
    let procs := s.processes.map (fun p => if p.id = processId then info3 else p)
    { processes := procs, ports := ports, persisted := procs }

/-- The per-record normalization inside restoreState: a record persisted as
running or starting cannot have survived a supervisor restart, so it is forced
to stopped with a fresh stop timestamp; every other record is untouched. -/
def restoreRecord (now : Nat) (p : ProcInfo) : ProcInfo :=
  if p.status = .running ∨ p.status = .starting then
    { p with status := .stopped, stoppedAt := some now }
  else p

/-- Method restoreState of process-manager.ts: walk the persisted record list,
normalize each record with `restoreRecord`, and reserve its port in the
allocator whenever the normalized status is not stopped. -/
def restoreState (now : Nat) : List ProcInfo → PortManager → List ProcInfo × PortManager
  | [], pm => ([], pm)
  | p :: rest, pm =>
    let p2 := restoreRecord now p
    let pm2 := if p2.status ≠ .stopped then (pm.reserve p2.port).1 else pm
    let result := restoreState now rest pm2
    (p2 :: result.1, result.2)

/-- Result of removeProcess: `notFound` models `return false`, `rejected`
models the thrown "Cannot remove running process" error, `removed` models
`return true`. -/
inductive RemoveOutcome
  | notFound
  | rejected
  | removed
deriving DecidableEq

/-- Method removeProcess of process-manager.ts: false for an unknown id; a
thrown error when the record's status is running or starting; otherwise the
record is deleted from the map and the record set is persisted. -/
def PMState.removeProcess (s : PMState) (processId : String) : RemoveOutcome × PMState :=
  match s.processes.find? (fun p => p.id = processId) with
  | none => (.notFound, s)
  | some managed =>
    if managed.status = .running ∨ managed.status = .starting then
      (.rejected, s)
    else
      let procs := s.processes.filter (fun p => ¬ p.id = processId)
      (.removed, { s with processes := procs, persisted := procs })

/-- The per-record state the lifecycle callbacks in process-manager.ts operate
on: the record's status and whether `managed.process` (the live OS handle) is
still set. -/
structure RecState where
  status : ProcessStatus
  hasProc : Bool
deriving DecidableEq

/-- The operations of process-manager.ts that write a record's status:
the stdout readiness-marker handler, the child "error" handler, the child
"exit" handler (with its exit code), the synchronous head of kill, and the
catch block of spawn. -/
inductive SupervisorOp
  | readyLine
  | errorEvent
  | exitEvent (code : Int)
  | killStep
  | spawnCatch
deriving DecidableEq

/-- Effect of each status-writing operation, translated line by line:
readyLine and errorEvent call updateStatus with running / error
unconditionally; the exit handler sends stopped on a clean exit or error
otherwise unless the record was already stopping/stopped (then stopped), and
clears the handle; kill sets stopped directly when no handle remains and
stopping otherwise; spawn's catch block sets error. -/
def applyOp : SupervisorOp → RecState → RecState
  | .readyLine, r => { r with status := .running }
  | .errorEvent, r => { r with status := .error }
  | .exitEvent code, r =>
    if r.status ≠ .stopping ∧ r.status ≠ .stopped then
      { status := if code = 0 then .stopped else .error, hasProc := false }
    else
      { status := .stopped, hasProc := false }
  | .killStep, r =>
    if r.hasProc then { r with status := .stopping } else { r with status := .stopped }
  | .spawnCatch, r => { r with status := .error }

/-- Which operations the runtime can deliver to a record in a given state: the
three child-process callbacks require the live handle; kill can always be
called; spawn's catch block only runs while the record it just created is
starting or has already flipped to error inside the grace window. -/
def applicable : SupervisorOp → RecState → Bool
  | .readyLine, r => r.hasProc
  | .errorEvent, r => r.hasProc
  | .exitEvent _, r => r.hasProc
  | .killStep, _ => true
  | .spawnCatch, r =>
    decide (r.status = ProcessStatus.starting) || decide (r.status = ProcessStatus.error)

/-- The transition edges the code actually takes: the documented machine
starting → running → stopping → stopped with error reachable from starting,
running and stopping, plus the edges starting → stopping/stopped,
running → stopped, stopping → running and error → running/stopping/stopped.
No edge leaves stopped. -/
def codeEdge : ProcessStatus → ProcessStatus → Bool
  | .starting, .running => true
  | .starting, .stopping => true
  | .starting, .stopped => true
  | .starting, .error => true
  | .running, .stopping => true
  | .running, .stopped => true
  | .running, .error => true
  | .stopping, .running => true
  | .stopping, .stopped => true
  | .stopping, .error => true
  | .error, .running => true
  | .error, .stopping => true
  | .error, .stopped => true
  | _, _ => false

/-- C1 counterexample: kill on a record whose status is error and whose OS
handle is gone (for example an error record restored from disk) sets the
status to stopped, so error is not terminal — contradicting the claim that
once a record is stopped or error no operation changes its status. -/
theorem kill_changes_error_status :
    applicable SupervisorOp.killStep ⟨ProcessStatus.error, false⟩ = true ∧
    (applyOp SupervisorOp.killStep ⟨ProcessStatus.error, false⟩).status = ProcessStatus.stopped ∧
    ProcessStatus.stopped ≠ ProcessStatus.error := by decide

/-- C1 amended: every status-writing operation either leaves the status
unchanged or moves it along an edge of `codeEdge` — the documented machine
extended with starting → stopping/stopped, running → stopped,
stopping → running and error → running/stopping/stopped; and stopped (unlike
error) really is terminal: a stopped record (whose handle is necessarily gone)
keeps status stopped under every applicable operation. -/
theorem status_transitions_follow_code_edges (r : RecState) (op : SupervisorOp)
    (hap : applicable op r = true)
    (hinv : r.status = ProcessStatus.stopped → r.hasProc = false) :
    ((applyOp op r).status = r.status ∨ codeEdge r.status (applyOp op r).status = true) ∧
    (r.status = ProcessStatus.stopped → (applyOp op r).status = ProcessStatus.stopped) := by
  obtain ⟨st, hp⟩ := r
  cases op with
  | exitEvent code =>
    by_cases hc : code = 0 <;>
      cases st <;> cases hp <;> simp_all [applyOp, applicable, codeEdge]
  | readyLine => cases st <;> cases hp <;> simp_all [applyOp, applicable, codeEdge]
  | errorEvent => cases st <;> cases hp <;> simp_all [applyOp, applicable, codeEdge]
  | killStep => cases st <;> cases hp <;> simp_all [applyOp, applicable, codeEdge]
  | spawnCatch => cases st <;> cases hp <;> simp_all [applyOp, applicable, codeEdge]

/-- Witness for the amended C1 theorem: kill on a live running record moves it
along the running → stopping edge. -/
theorem status_transitions_follow_code_edges_witness :
    ((applyOp SupervisorOp.killStep ⟨ProcessStatus.running, true⟩).status = ProcessStatus.running ∨
      codeEdge ProcessStatus.running
        (applyOp SupervisorOp.killStep ⟨ProcessStatus.running, true⟩).status = true) ∧
    (ProcessStatus.running = ProcessStatus.stopped →
      (applyOp SupervisorOp.killStep ⟨ProcessStatus.running, true⟩).status = ProcessStatus.stopped) :=
  status_transitions_follow_code_edges ⟨ProcessStatus.running, true⟩ SupervisorOp.killStep
    (by decide) (by decide)

lemma restoreRecord_port (now : Nat) (p : ProcInfo) : (restoreRecord now p).port = p.port := by
  unfold restoreRecord; split <;> rfl

lemma isAvailable_iff (pm : PortManager) (port : Nat) :
    pm.isAvailable port = true ↔
      port ∉ pm.usedPorts ∧ BASE_PORT ≤ port ∧ port ≤ MAX_PORT := by
  simp [PortManager.isAvailable, Bool.and_eq_true, decide_eq_true_iff, and_assoc]

lemma restoreState_fst (now : Nat) (l : List ProcInfo) (pm : PortManager) :
    (restoreState now l pm).1 = l.map (restoreRecord now) := by
  induction l generalizing pm with
  | nil => rfl
  | cons p rest ih => simp [restoreState, ih]

lemma restoreState_mem_iff (now : Nat) (l : List ProcInfo) (pm : PortManager) (q : Nat) :
    q ∈ (restoreState now l pm).2.usedPorts ↔
      q ∈ pm.usedPorts ∨ ∃ p ∈ l, (restoreRecord now p).status ≠ ProcessStatus.stopped ∧
        p.port = q ∧ BASE_PORT ≤ q ∧ q ≤ MAX_PORT := by
  induction l generalizing pm with
  | nil => simp [restoreState]
  | cons p rest ih =>
    show q ∈ (restoreState now (p :: rest) pm).2.usedPorts ↔ _
    rw [restoreState]
    simp only []
    rw [ih]
    have hstep : q ∈ (if (restoreRecord now p).status ≠ ProcessStatus.stopped then
          (pm.reserve (restoreRecord now p).port).1 else pm).usedPorts ↔
        q ∈ pm.usedPorts ∨ ((restoreRecord now p).status ≠ ProcessStatus.stopped ∧
          p.port = q ∧ BASE_PORT ≤ q ∧ q ≤ MAX_PORT) := by
      by_cases hst : (restoreRecord now p).status = ProcessStatus.stopped
      · simp [hst]
      · simp only [hst, ne_eq, not_false_eq_true, if_true, true_and]
        unfold PortManager.reserve
        by_cases hav : pm.isAvailable (restoreRecord now p).port = true
        · rw [if_pos hav]
          have hav2 : p.port ∉ pm.usedPorts ∧ BASE_PORT ≤ p.port ∧ p.port ≤ MAX_PORT := by
            rw [isAvailable_iff, restoreRecord_port] at hav
            exact hav
          simp only [restoreRecord_port, Finset.mem_insert]
          constructor
          · rintro (rfl | hq)
            · exact Or.inr ⟨rfl, hav2.2.1, hav2.2.2⟩
            · exact Or.inl hq
          · rintro (hq | ⟨rfl, _, _⟩)
            · exact Or.inr hq
            · exact Or.inl rfl
        · rw [if_neg hav]
          rw [Bool.not_eq_true, restoreRecord_port] at hav
          constructor
          · exact Or.inl
          · rintro (hq | ⟨rfl, h1, h2⟩)
            · exact hq
            · by_contra hq
              have hthis : pm.isAvailable p.port = true := by
                rw [isAvailable_iff]; exact ⟨hq, h1, h2⟩
              exact absurd hthis (by simp [hav])
    rw [hstep]
    constructor
    · rintro ((hq | hnew) | ⟨r, hr, hs⟩)
      · exact Or.inl hq
      · exact Or.inr ⟨p, List.mem_cons_self p rest, hnew.1, hnew.2⟩
      · exact Or.inr ⟨r, List.mem_cons_of_mem p hr, hs⟩
    · rintro (hq | ⟨r, hr, hs⟩)
      · exact Or.inl (Or.inl hq)
      · rcases List.mem_cons.1 hr with rfl | hr2
        · exact Or.inl (Or.inr hs)
        · exact Or.inr ⟨r, hr2, hs⟩

/-- Concrete persisted record in status error, used to exhibit the recovery
behaviour on terminal records. -/
def errRecEx : ProcInfo := { id := "e1", port := 8005, status := ProcessStatus.error }

/-- C2 counterexample: recovery of a persisted record whose status is the
terminal status error leaves the record as-is but DOES reserve its port (the
code reserves every record whose status is not stopped), contradicting the
claim that only records in a non-terminal status get their port reserved. -/
theorem restore_reserves_error_port :
    errRecEx.status = ProcessStatus.error ∧
    (restoreState 0 [errRecEx] ⟨∅⟩).1 = [errRecEx] ∧
    8005 ∈ (restoreState 0 [errRecEx] ⟨∅⟩).2.usedPorts := by decide

/-- C2 amended: recovery forces running/starting records to stopped (stamping
the stop time, keeping id and port) and leaves stopped, error and stopping
records untouched; a port ends up reserved exactly when it was already held or
belongs to some record whose normalized status is not stopped — that is, a
record persisted as stopping or error — and lies in the allocator range. In
particular the ports of records forced from running/starting to stopped are
not reserved, but the ports of terminal error records are. -/
theorem restoreState_normalizes_and_reserves (now : Nat) (l : List ProcInfo) (pm : PortManager) :
    (restoreState now l pm).1 = l.map (restoreRecord now) ∧
    (∀ p : ProcInfo, (p.status = ProcessStatus.running ∨ p.status = ProcessStatus.starting) →
      (restoreRecord now p).status = ProcessStatus.stopped ∧
      (restoreRecord now p).stoppedAt = some now ∧
      (restoreRecord now p).port = p.port ∧ (restoreRecord now p).id = p.id) ∧
    (∀ p : ProcInfo, (p.status = ProcessStatus.stopped ∨ p.status = ProcessStatus.error ∨
        p.status = ProcessStatus.stopping) → restoreRecord now p = p) ∧
    (∀ q, q ∈ (restoreState now l pm).2.usedPorts ↔
      q ∈ pm.usedPorts ∨ ∃ p ∈ l, (restoreRecord now p).status ≠ ProcessStatus.stopped ∧
        p.port = q ∧ BASE_PORT ≤ q ∧ q ≤ MAX_PORT) := by
  refine ⟨restoreState_fst now l pm, ?_, ?_, fun q => restoreState_mem_iff now l pm q⟩
  · intro p hp
    unfold restoreRecord
    rw [if_pos hp]
    exact ⟨rfl, rfl, rfl, rfl⟩
  · intro p hp
    unfold restoreRecord
    rw [if_neg]
    rcases hp with h | h | h <;> rw [h] <;> simp

/-- Witness for the amended C2 theorem at a concrete running record and a
concrete recovery run. -/
theorem restoreState_normalizes_and_reserves_witness :
    (restoreRecord 0 { id := "r1", port := 8007, status := ProcessStatus.running }).status =
      ProcessStatus.stopped ∧
    (restoreRecord 0 { id := "r1", port := 8007, status := ProcessStatus.running }).stoppedAt =
      some 0 :=
  have h := (restoreState_normalizes_and_reserves 0 [errRecEx] ⟨∅⟩).2.1
    { id := "r1", port := 8007, status := ProcessStatus.running } (Or.inl rfl)
  ⟨h.1, h.2.1⟩

/-- Concrete record in status stopping for exercising removeProcess. -/
def stoppingRecEx : ProcInfo := { id := "a", port := 8002, status := ProcessStatus.stopping }

/-- Concrete manager state holding only the stopping record. -/
def stoppingStateEx : PMState :=
  { processes := [stoppingRecEx], ports := ⟨{8002}⟩, persisted := [stoppingRecEx] }

/-- C5 counterexample: removeProcess on a record whose status is stopping — a
live status by the claim's own enumeration — is not rejected: the guard only
checks running and starting, so the record is deleted and true is returned. -/
theorem removeProcess_accepts_stopping :
    stoppingRecEx.status = ProcessStatus.stopping ∧
    (stoppingStateEx.removeProcess "a").1 = RemoveOutcome.removed ∧
    (stoppingStateEx.removeProcess "a").1 ≠ RemoveOutcome.rejected ∧
    (stoppingStateEx.removeProcess "a").2.processes = [] := by decide

/-- C5 amended: removeProcess returns false on an unknown id; it rejects
(throws) exactly when the record's status is running or starting; for every
other status — stopping included, not only stopped and error — it deletes the
record (so its id no longer appears in the process list), persists the changed
record set, and returns true. -/
theorem removeProcess_guard (s : PMState) (processId : String) :
    (s.processes.find? (fun p => p.id = processId) = none →
      s.removeProcess processId = (RemoveOutcome.notFound, s)) ∧
    (∀ m, s.processes.find? (fun p => p.id = processId) = some m →
      (m.status = ProcessStatus.running ∨ m.status = ProcessStatus.starting) →
      s.removeProcess processId = (RemoveOutcome.rejected, s)) ∧
    (∀ m, s.processes.find? (fun p => p.id = processId) = some m →
      m.status ≠ ProcessStatus.running → m.status ≠ ProcessStatus.starting →
      (s.removeProcess processId).1 = RemoveOutcome.removed ∧
      (∀ p ∈ (s.removeProcess processId).2.processes, p.id ≠ processId) ∧
      (s.removeProcess processId).2.persisted = (s.removeProcess processId).2.processes) := by
  refine ⟨?_, ?_, ?_⟩
  · intro h
    unfold PMState.removeProcess
    rw [h]
  · intro m hm hlive
    unfold PMState.removeProcess
    rw [hm]
    rcases hlive with h | h <;> simp [h]
  · intro m hm h1 h2
    have hcond : ¬(m.status = ProcessStatus.running ∨ m.status = ProcessStatus.starting) := by
      rintro (h | h) <;> [exact h1 h; exact h2 h]
    unfold PMState.removeProcess
    simp only [hm, if_neg hcond]
    refine ⟨by trivial, ?_, by trivial⟩
    intro p hp
    have hp2 : p ∈ s.processes.filter (fun p => ¬ p.id = processId) := hp
    have := List.mem_filter.1 hp2
    simpa using this.2

/-- Witness for the amended C5 theorem: removing a stopped record from a
concrete state succeeds and the record disappears. -/
theorem removeProcess_guard_witness :
    (PMState.removeProcess
      { processes := [{ id := "b", port := 8003, status := ProcessStatus.stopped }],
        ports := ⟨∅⟩,
        persisted := [{ id := "b", port := 8003, status := ProcessStatus.stopped }] } "b").1 =
      RemoveOutcome.removed :=
  have h := (removeProcess_guard
      { processes := [{ id := "b", port := 8003, status := ProcessStatus.stopped }],
        ports := ⟨∅⟩,
        persisted := [{ id := "b", port := 8003, status := ProcessStatus.stopped }] } "b").2.2
      { id := "b", port := 8003, status := ProcessStatus.stopped }
      (by decide) (by decide) (by decide)
  h.1

/-- C6: every status transition made through updateStatus persists the full
record set to durable storage (the persisted copy equals the post-transition
record map); when the new status is terminal (stopped or error) it also
releases the record's port back to the allocator and stamps the stop
timestamp; a non-terminal status leaves the allocator untouched. -/
theorem updateStatus_persists_and_releases (s : PMState) (processId : String)
    (status : ProcessStatus) (err : Option String) (now : Nat) (managed : ProcInfo)
    (hfind : s.processes.find? (fun p => p.id = processId) = some managed) :
    (s.updateStatus processId status err now).persisted =
      (s.updateStatus processId status err now).processes ∧
    ((status = ProcessStatus.stopped ∨ status = ProcessStatus.error) →
      managed.port ∉ (s.updateStatus processId status err now).ports.usedPorts ∧
      ∀ p ∈ (s.updateStatus processId status err now).processes, p.id = processId →
        p.stoppedAt = some now ∧ p.status = status) ∧
    ((status ≠ ProcessStatus.stopped ∧ status ≠ ProcessStatus.error) →
      (s.updateStatus processId status err now).ports = s.ports) ∧
    (∀ p ∈ (s.updateStatus processId status err now).processes, p.id = processId →
      p.status = status) := by
  have hstatus : ∀ q : ProcInfo,
      (applyTerminal status now (applyErr err q)).status = q.status := by
    intro q
    unfold applyTerminal applyErr
    cases err with
    | none => split <;> rfl
    | some m => by_cases hm : m = "" <;> simp [hm] <;> split <;> rfl
  have hstamp : (status = ProcessStatus.stopped ∨ status = ProcessStatus.error) →
      ∀ q : ProcInfo, (applyTerminal status now (applyErr err q)).stoppedAt = some now := by
    intro hterm q
    unfold applyTerminal
    rw [if_pos hterm]
  unfold PMState.updateStatus
  simp only [hfind]
  by_cases hterm : status = ProcessStatus.stopped ∨ status = ProcessStatus.error
  · rw [if_pos hterm]
    refine ⟨by trivial, ?_, ?_, ?_⟩
    · intro _
      refine ⟨Finset.not_mem_erase managed.port _, ?_⟩
      intro p hp hpid
      rcases List.mem_map.1 hp with ⟨p0, hp0, rfl⟩
      by_cases hid : p0.id = processId
      · rw [if_pos hid]
        exact ⟨hstamp hterm _, hstatus _⟩
      · rw [if_neg hid] at hpid
        exact absurd hpid hid
    · intro hne
      rcases hterm with h | h
      · exact absurd h hne.1
      · exact absurd h hne.2
    · intro p hp hpid
      rcases List.mem_map.1 hp with ⟨p0, hp0, rfl⟩
      by_cases hid : p0.id = processId
      · rw [if_pos hid]
        exact hstatus _
      · rw [if_neg hid] at hpid
        exact absurd hpid hid
  · rw [if_neg hterm]
    refine ⟨by trivial, fun h => absurd h hterm, fun _ => by trivial, ?_⟩
    intro p hp hpid
    rcases List.mem_map.1 hp with ⟨p0, hp0, rfl⟩
    by_cases hid : p0.id = processId
    · rw [if_pos hid]
      exact hstatus _
    · rw [if_neg hid] at hpid
      exact absurd hpid hid

/-- Witness for C6 at a concrete transition: stopping record "a" on port 8002
moved to stopped releases 8002 and the persisted copy equals the record map. -/
theorem updateStatus_persists_and_releases_witness :
    (stoppingStateEx.updateStatus "a" ProcessStatus.stopped none 42).persisted =
      (stoppingStateEx.updateStatus "a" ProcessStatus.stopped none 42).processes ∧
    8002 ∉ (stoppingStateEx.updateStatus "a" ProcessStatus.stopped none 42).ports.usedPorts :=
  have h := updateStatus_persists_and_releases stoppingStateEx "a" ProcessStatus.stopped
    none 42 stoppingRecEx (by decide)
  ⟨h.1, (h.2.1 (Or.inl rfl)).1⟩

/-! ## Launch configuration (vllm-config.ts) -/

/-- The VLLMConfig structure from the types module. Optional fields are
Options; the memory-utilization fraction is modeled as a rational (the code
only compares and prints it, never does float-specific arithmetic). -/
structure VLLMConfig where
  port : Nat
  host : String
  tokenizer : Option String := none
  tokenizerMode : Option String := none
  tensorParallelSize : Option Nat := none
  pipelineParallelSize : Option Nat := none
  dtype : Option String := none
  maxModelLen : Option Nat := none
  gpuMemoryUtilization : Option ℚ := none
  quantization : Option String := none
  loadFormat : Option String := none
  apiKey : Option String := none
  servedModelName : Option String := none
  enforceEager : Bool := false
  maxNumSeqs : Option Nat := none
  trustRemoteCode : Bool := false
deriving DecidableEq

/-- Function buildVLLMArgs of vllm-config.ts, translated push-by-push. A JS
truthiness guard `if (config.x)` is modeled as: present and non-empty for a
string, present and non-zero for a number (for the numeric guards combined
with `> 1` or `> 0` the non-zero test is subsumed and dropped). -/
def buildVLLMArgs (modelPath : String) (config : VLLMConfig) : List String :=
  ["serve", modelPath]
  ++ ["--port", toString config.port]
  ++ ["--host", config.host]
  ++ (match config.tokenizer with
      | some t => if t = "" then [] else ["--tokenizer", t]
      | none => [])
  ++ (match config.tokenizerMode with
      | some tm => if tm = "" then [] else ["--tokenizer-mode", tm]
      | none => [])
  ++ (match config.tensorParallelSize with
      | some n => if 1 < n then ["--tensor-parallel-size", toString n] else []
      | none => [])
  ++ (match config.pipelineParallelSize with
      | some n => if 1 < n then ["--pipeline-parallel-size", toString n] else []
      | none => [])
  ++ (match config.dtype with
      | some d => if d = "" ∨ d = "auto" then [] else ["--dtype", d]
      | none => [])
  ++ (match config.maxModelLen with
      | some n => if n = 0 then [] else ["--max-model-len", toString n]
      | none => [])
  ++ (match config.gpuMemoryUtilization with
      | some q => if 0 < q ∧ q ≤ 1 then ["--gpu-memory-utilization", toString q] else []
      | none => [])
  ++ (match config.quantization with
      | some s => if s = "" then [] else ["--quantization", s]
      | none => [])
  ++ (match config.loadFormat with
      | some lf => if lf = "" ∨ lf = "auto" then [] else ["--load-format", lf]
      | none => [])
  ++ (match config.apiKey with
      | some s => if s = "" then [] else ["--api-key", s]
      | none => [])
  ++ (match config.servedModelName with
      | some s => if s = "" then [] else ["--served-model-name", s]
      | none => [])
  ++ (if config.enforceEager then ["--enforce-eager"] else [])
  ++ (match config.maxNumSeqs with
      | some n => if n = 0 then [] else ["--max-num-seqs", toString n]
      | none => [])
  ++ (if config.trustRemoteCode then ["--trust-remote-code"] else [])

/-- Function getDefaultConfig of vllm-config.ts. The 0.9 default fraction is
written `mkRat 9 10` (the same rational) so concrete runs evaluate. -/
def getDefaultConfig (port : Nat) : VLLMConfig :=
  { port := port
    host := "127.0.0.1"
    dtype := some "auto"
    gpuMemoryUtilization := some (mkRat 9 10)
    enforceEager := false
    trustRemoteCode := false }

/-- C7: buildVLLMArgs is a pure function of the merged configuration and omits
default-valued fields: an unset, zero or 1 tensorParallelSize yields the same
argument vector as leaving the field out entirely (no tensor-parallel flag);
dtype unset or "auto" likewise; a gpuMemoryUtilization outside (0,1] is
dropped, not passed through; and on the default configuration the concrete
argument list contains neither the tensor-parallel flag nor the dtype flag. -/
theorem buildVLLMArgs_omits_defaults (modelPath : String) (config : VLLMConfig) :
    ((config.tensorParallelSize = none ∨ config.tensorParallelSize = some 0 ∨
        config.tensorParallelSize = some 1) →
      buildVLLMArgs modelPath config =
        buildVLLMArgs modelPath { config with tensorParallelSize := none }) ∧
    ((config.dtype = none ∨ config.dtype = some "auto") →
      buildVLLMArgs modelPath config =
        buildVLLMArgs modelPath { config with dtype := none }) ∧
    (∀ q : ℚ, config.gpuMemoryUtilization = some q → ¬(0 < q ∧ q ≤ 1) →
      buildVLLMArgs modelPath config =
        buildVLLMArgs modelPath { config with gpuMemoryUtilization := none }) ∧
    ("--tensor-parallel-size" ∉ buildVLLMArgs "/models/m.gguf" (getDefaultConfig 8000) ∧
      "--dtype" ∉ buildVLLMArgs "/models/m.gguf" (getDefaultConfig 8000)) := by
  refine ⟨?_, ?_, ?_, ?_⟩
  · rintro (h | h | h) <;> simp [buildVLLMArgs, h]
  · rintro (h | h) <;> simp [buildVLLMArgs, h]
  · intro q hq hout
    simp [buildVLLMArgs, hq, hout]
  · constructor <;> decide

/-- Witness for C7: the default configuration with tensorParallelSize set to 1
produces the same argument vector as with it unset. -/
theorem buildVLLMArgs_omits_defaults_witness :
    buildVLLMArgs "/models/m.gguf"
        { getDefaultConfig 8000 with tensorParallelSize := some 1 } =
      buildVLLMArgs "/models/m.gguf"
        { { getDefaultConfig 8000 with tensorParallelSize := some 1 } with
            tensorParallelSize := none } :=
  (buildVLLMArgs_omits_defaults "/models/m.gguf"
    { getDefaultConfig 8000 with tensorParallelSize := some 1 }).1 (Or.inr (Or.inr rfl))

/-! ## Download manager (download-manager.ts) -/

/-- The DownloadStatus union type (pending, downloading, paused, completed,
error, cancelled); paused appears in the type but is never assigned. -/
inductive DownloadStatus
  | pending
  | downloading
  | paused
  | completed
  | error
  | cancelled
deriving DecidableEq

/-- The DownloadProgress record: bytes downloaded and total, percent, and the
optional derived speed/eta. Byte counts and rates are modeled as rationals
(the code only adds, divides and compares them). -/
structure DownloadProgress where
  downloaded : ℚ
  total : ℚ
  percent : ℚ
  speed : Option ℚ := none
  eta : Option ℚ := none
deriving DecidableEq

/-- The per-download record fields the lifecycle operations touch. -/
structure DownloadRec where
  id : String
  status : DownloadStatus
  progress : DownloadProgress
  error : Option String := none
  completedAt : Option Nat := none
deriving DecidableEq

/-- The ManagedDownload bookkeeping around a record: transfer start time and
the timestamp of the last emitted progress event (both ms clock readings). -/
structure ManagedDownload where
  info : DownloadRec
  startTime : Nat
  lastUpdate : Nat
deriving DecidableEq

/-- Method updateProgress of download-manager.ts, used by the URL and
object-store chunk callbacks: recompute the full progress (speed from elapsed
wall time, eta from the remainder), store it on the in-memory record
unconditionally, and emit a progress event (the returned Bool) only when at
least 100ms have passed since the last emitted one, resetting the throttle
clock on emission. -/
def updateProgress (m : ManagedDownload) (downloaded total : ℚ) (now : Nat) :
    ManagedDownload × Bool :=
  let elapsed : ℚ := (((now : ℤ) - (m.startTime : ℤ) : ℤ) : ℚ) / 1000
  let speed : ℚ := if 0 < elapsed then downloaded / elapsed else 0
  let remaining : ℚ := total - downloaded
  let eta : ℚ := if 0 < speed then remaining / speed else 0
  let progress : DownloadProgress :=
    { downloaded := downloaded
      total := total
      percent := if 0 < total then downloaded / total * 100 else 0
      speed := some speed
      eta := some eta }
  let m2 := { m with info := { m.info with progress := progress } }
  if 100 ≤ (now : ℤ) - (m.lastUpdate : ℤ) then
    ({ m2 with lastUpdate := now }, true)
  else
    (m2, false)

/-- The stdout/stderr data handler of performHuggingFaceDownload: when the
line matches the percent/fraction progress pattern (modeled as the parsed
`(percent, downloaded, total)` triple, `none` when there is no match) AND at
least 100ms passed since `lastProgressUpdate`, overwrite the record's progress
and emit an event; otherwise do nothing at all — the in-memory record is NOT
updated outside the throttle window. Returns the managed record, the new
`lastProgressUpdate`, and whether an event was emitted. -/
def hfChunk (m : ManagedDownload) (lastProgressUpdate : Nat)
    (parsed : Option (ℚ × ℚ × ℚ)) (now : Nat) : ManagedDownload × Nat × Bool :=
  match parsed with
  | none => (m, lastProgressUpdate, false)
  | some (percent, downloaded, total) =>
    if 100 ≤ (now : ℤ) - (lastProgressUpdate : ℤ) then
      ({ m with info := { m.info with progress :=
          { downloaded := downloaded, total := total, percent := percent,
            speed := none, eta := none } } }, now, true)
    else
      (m, lastProgressUpdate, false)

/-- The `if (error) managed.info.error = error` line of the download
updateStatus: the message is stored only when present and non-empty. -/
def applyDlErr (err : Option String) (p : DownloadRec) : DownloadRec :=
  match err with
  | some m => if m = "" then p else { p with error := some m }
  | none => p

/-- Method updateStatus of download-manager.ts (record part): set the status,
store a non-empty error message, and stamp completedAt when the new status is
terminal (completed, error or cancelled). -/
def DownloadRec.updateStatus (r : DownloadRec) (status : DownloadStatus)
    (err : Option String) (now : Nat) : DownloadRec :=
  let r2 := applyDlErr err { r with status := status }
  if status = .completed ∨ status = .error ∨ status = .cancelled then
    { r2 with completedAt := some now }
  else r2

lemma applyDlErr_status (err : Option String) (p : DownloadRec) :
    (applyDlErr err p).status = p.status := by
  cases err with
  | none => rfl
  | some m =>
    unfold applyDlErr
    by_cases hm : m = "" <;> simp [hm]

lemma applyDlErr_error_some {msg : String} (hm : msg ≠ "") (p : DownloadRec) :
    (applyDlErr (some msg) p).error = some msg := by
  unfold applyDlErr
  simp [hm]

/-- A JS Error as observed by the two catch handlers: its name and message. -/
structure JsError where
  name : String
  message : String
deriving DecidableEq

/-- The rejection produced when an AbortController aborts a fetch-based
transfer (URL or object-store): an error named AbortError. -/
def abortError (msg : String) : JsError := { name := "AbortError", message := msg }

/-- The catch handler of downloadFromUrl / downloadFromS3: best-effort delete
the partial destination file (the returned Bool is whether the file exists
afterwards), then mark the record cancelled when the error is an AbortError
and error (with the message) otherwise. -/
def urlCatch (r : DownloadRec) (err : JsError) (destExists : Bool) (now : Nat) :
    DownloadRec × Bool :=
  if err.name = "AbortError" then
    (r.updateStatus .cancelled none now, false)
  else
    (r.updateStatus .error (some err.message) now, false)

/-- The catch handler of downloadFromHuggingFace: same file cleanup, but the
cancellation marker is the "Download cancelled" message produced when the hf
child is killed (exit code null). -/
def hfCatch (r : DownloadRec) (err : JsError) (destExists : Bool) (now : Nat) :
    DownloadRec × Bool :=
  if err.message = "Download cancelled" then
    (r.updateStatus .cancelled none now, false)
  else
    (r.updateStatus .error (some err.message) now, false)

/-- Method cancel of download-manager.ts: false for an unknown id or a record
not in status downloading; otherwise the abort token / child kill is triggered
and true is returned. -/
def cancelDownload (dls : List (String × DownloadRec)) (id : String) : Bool :=
  match dls.find? (fun p => p.1 = id) with
  | none => false
  | some e => decide (e.2.status = DownloadStatus.downloading)

/-- Method removeDownload of download-manager.ts: false for an unknown id; for
a known record, first trigger cancellation when it is still downloading (third
component), then delete it from the map and return true — no status is
rejected. -/
def removeDownload (dls : List (String × DownloadRec)) (id : String) :
    Bool × List (String × DownloadRec) × Bool :=
  match dls.find? (fun p => p.1 = id) with
  | none => (false, dls, false)
  | some e =>
    (true, dls.filter (fun p => ¬ p.1 = id),
      decide (e.2.status = DownloadStatus.downloading))

/-- Concrete download record in status downloading with zeroed progress. -/
def dlRecEx : DownloadRec :=
  { id := "d1", status := DownloadStatus.downloading,
    progress := { downloaded := 0, total := 0, percent := 0 } }

/-- Concrete managed download whose last progress event was at time 0. -/
def mDlEx : ManagedDownload := { info := dlRecEx, startTime := 0, lastUpdate := 0 }

/-- C8 counterexample: a repository (hf) progress line parsed 50ms after the
previous progress update leaves the in-memory record completely untouched —
the hf handler updates the record only inside the 100ms throttle window, so
the record update is NOT synchronous on every chunk for the repository source;
the URL/object-store path by contrast does update the record on the same
chunk (while emitting no event). -/
theorem hf_record_update_is_throttled :
    (hfChunk mDlEx 0 (some (45, 5, 10)) 50).1 = mDlEx ∧
    (hfChunk mDlEx 0 (some (45, 5, 10)) 50).1.info.progress.downloaded = 0 ∧
    (hfChunk mDlEx 0 (some (45, 5, 10)) 50).2.2 = false ∧
    (updateProgress mDlEx 5 10 50).1.info.progress.downloaded = 5 ∧
    (updateProgress mDlEx 5 10 50).2 = false := by decide

/-- C8 amended: for the URL and object-store sources the in-memory record is
updated synchronously on every chunk while events are throttled to one per
100ms (an emission requires 100ms since the previous one and resets the
clock, so consecutive emissions are at least 100ms apart); for the repository
source the 100ms throttle gates the record update and the event together, so
outside the window neither happens. -/
theorem progress_sync_and_throttle :
    (∀ (m : ManagedDownload) (downloaded total : ℚ) (now : Nat),
      (updateProgress m downloaded total now).1.info.progress.downloaded = downloaded ∧
      (updateProgress m downloaded total now).1.info.progress.total = total ∧
      ((updateProgress m downloaded total now).2 = true ↔
        100 ≤ (now : ℤ) - (m.lastUpdate : ℤ)) ∧
      ((updateProgress m downloaded total now).2 = true →
        (updateProgress m downloaded total now).1.lastUpdate = now) ∧
      ((updateProgress m downloaded total now).2 = false →
        (updateProgress m downloaded total now).1.lastUpdate = m.lastUpdate)) ∧
    (∀ (m : ManagedDownload) (d1 t1 : ℚ) (now1 : Nat) (d2 t2 : ℚ) (now2 : Nat),
      (updateProgress m d1 t1 now1).2 = true →
      (updateProgress (updateProgress m d1 t1 now1).1 d2 t2 now2).2 = true →
      100 ≤ (now2 : ℤ) - (now1 : ℤ)) ∧
    (∀ (m : ManagedDownload) (last : Nat) (percent downloaded total : ℚ) (now : Nat),
      ((hfChunk m last (some (percent, downloaded, total)) now).2.2 = true ↔
        100 ≤ (now : ℤ) - (last : ℤ)) ∧
      ((hfChunk m last (some (percent, downloaded, total)) now).2.2 = false →
        (hfChunk m last (some (percent, downloaded, total)) now).1 = m ∧
        (hfChunk m last (some (percent, downloaded, total)) now).2.1 = last) ∧
      ((hfChunk m last (some (percent, downloaded, total)) now).2.2 = true →
        (hfChunk m last (some (percent, downloaded, total)) now).1.info.progress.downloaded
            = downloaded ∧
        (hfChunk m last (some (percent, downloaded, total)) now).2.1 = now)) ∧
    (∀ (m : ManagedDownload) (last now : Nat),
      hfChunk m last none now = (m, last, false)) := by
  have hupd : ∀ (m : ManagedDownload) (downloaded total : ℚ) (now : Nat),
      (updateProgress m downloaded total now).1.info.progress.downloaded = downloaded ∧
      (updateProgress m downloaded total now).1.info.progress.total = total ∧
      ((updateProgress m downloaded total now).2 = true ↔
        100 ≤ (now : ℤ) - (m.lastUpdate : ℤ)) ∧
      ((updateProgress m downloaded total now).2 = true →
        (updateProgress m downloaded total now).1.lastUpdate = now) ∧
      ((updateProgress m downloaded total now).2 = false →
        (updateProgress m downloaded total now).1.lastUpdate = m.lastUpdate) := by
    intro m downloaded total now
    unfold updateProgress
    by_cases hth : 100 ≤ (now : ℤ) - (m.lastUpdate : ℤ)
    · rw [if_pos hth]
      exact ⟨rfl, rfl, ⟨fun _ => hth, fun _ => rfl⟩, fun _ => rfl,
        fun h => Bool.noConfusion h⟩
    · rw [if_neg hth]
      exact ⟨rfl, rfl, ⟨fun h => Bool.noConfusion h, fun h => absurd h hth⟩,
        fun h => Bool.noConfusion h, fun _ => rfl⟩
  refine ⟨hupd, ?_, ?_, fun m last now => rfl⟩
  · intro m d1 t1 now1 d2 t2 now2 h1 h2
    have ha := (hupd m d1 t1 now1).2.2.2.1 h1
    have hb := ((hupd (updateProgress m d1 t1 now1).1 d2 t2 now2).2.2.1).1 h2
    rw [ha] at hb
    omega
  · intro m last percent downloaded total now
    simp only [hfChunk]
    by_cases hth : 100 ≤ (now : ℤ) - (last : ℤ)
    · rw [if_pos hth]
      exact ⟨⟨fun _ => hth, fun _ => rfl⟩, fun h => Bool.noConfusion h,
        fun _ => ⟨rfl, rfl⟩⟩
    · rw [if_neg hth]
      exact ⟨⟨fun h => Bool.noConfusion h, fun h => absurd h hth⟩, fun _ => ⟨rfl, rfl⟩,
        fun h => Bool.noConfusion h⟩

/-- Witness for the amended C8 theorem: a chunk 200ms after the last event
updates the record and emits. -/
theorem progress_sync_and_throttle_witness :
    (updateProgress mDlEx 5 10 200).1.info.progress.downloaded = 5 ∧
    (updateProgress mDlEx 5 10 200).2 = true :=
  have h := progress_sync_and_throttle.1 mDlEx 5 10 200
  ⟨h.1, h.2.2.1.2 (by decide)⟩

/-- C4: cancel on a record in status downloading returns true (the abort token
or child kill is triggered); the resulting abort surfaces in the catch handler
as an AbortError (fetch transfers) or the "Download cancelled" message (hf
transfers), which the handlers map to terminal status cancelled — never error
— after best-effort deletion of the partial destination file, so the file does
not exist afterwards; any other failure is mapped, after the same deletion, to
status error carrying the failure message. -/
theorem cancel_cancels_and_cleans (dls : List (String × DownloadRec)) (id : String)
    (r : DownloadRec) (err : JsError) (destExists : Bool) (now : Nat) :
    (dls.find? (fun p => p.1 = id) = some (id, r) →
      r.status = DownloadStatus.downloading → cancelDownload dls id = true) ∧
    (err.name = "AbortError" →
      (urlCatch r err destExists now).1.status = DownloadStatus.cancelled ∧
      (urlCatch r err destExists now).1.status ≠ DownloadStatus.error ∧
      (urlCatch r err destExists now).2 = false) ∧
    (err.name ≠ "AbortError" →
      (urlCatch r err destExists now).1.status = DownloadStatus.error ∧
      (err.message ≠ "" → (urlCatch r err destExists now).1.error = some err.message) ∧
      (urlCatch r err destExists now).2 = false) ∧
    (err.message = "Download cancelled" →
      (hfCatch r err destExists now).1.status = DownloadStatus.cancelled ∧
      (hfCatch r err destExists now).1.status ≠ DownloadStatus.error ∧
      (hfCatch r err destExists now).2 = false) ∧
    (err.message ≠ "Download cancelled" →
      (hfCatch r err destExists now).1.status = DownloadStatus.error ∧
      (err.message ≠ "" → (hfCatch r err destExists now).1.error = some err.message) ∧
      (hfCatch r err destExists now).2 = false) := by
  have hstat : ∀ (st : DownloadStatus) (e : Option String),
      (st = DownloadStatus.completed ∨ st = DownloadStatus.error ∨
        st = DownloadStatus.cancelled) →
      (r.updateStatus st e now).status = st := by
    intro st e hterm
    unfold DownloadRec.updateStatus
    rw [if_pos hterm]
    simp [applyDlErr_status]
  have herr : ∀ (st : DownloadStatus) (msg : String), msg ≠ "" →
      (r.updateStatus st (some msg) now).error = some msg := by
    intro st msg hm
    unfold DownloadRec.updateStatus
    split <;> simp [applyDlErr_error_some hm]
  refine ⟨?_, ?_, ?_, ?_, ?_⟩
  · intro hfind hdl
    unfold cancelDownload
    simp only [hfind]
    simp [hdl]
  · intro hab
    unfold urlCatch
    rw [if_pos hab]
    refine ⟨hstat _ none (Or.inr (Or.inr rfl)), ?_, rfl⟩
    show (r.updateStatus DownloadStatus.cancelled none now).status ≠ DownloadStatus.error
    rw [hstat _ none (Or.inr (Or.inr rfl))]
    decide
  · intro hab
    unfold urlCatch
    rw [if_neg hab]
    exact ⟨hstat _ (some err.message) (Or.inr (Or.inl rfl)),
      fun hm => herr _ err.message hm, rfl⟩
  · intro hcm
    unfold hfCatch
    rw [if_pos hcm]
    refine ⟨hstat _ none (Or.inr (Or.inr rfl)), ?_, rfl⟩
    show (r.updateStatus DownloadStatus.cancelled none now).status ≠ DownloadStatus.error
    rw [hstat _ none (Or.inr (Or.inr rfl))]
    decide
  · intro hcm
    unfold hfCatch
    rw [if_neg hcm]
    exact ⟨hstat _ (some err.message) (Or.inr (Or.inl rfl)),
      fun hm => herr _ err.message hm, rfl⟩

/-- Witness for C4 at a concrete downloading record and a concrete abort. -/
theorem cancel_cancels_and_cleans_witness :
    cancelDownload [("d1", dlRecEx)] "d1" = true ∧
    (urlCatch dlRecEx (abortError "This operation was aborted") true 7).1.status =
      DownloadStatus.cancelled ∧
    (urlCatch dlRecEx (abortError "This operation was aborted") true 7).2 = false :=
  have h := cancel_cancels_and_cleans [("d1", dlRecEx)] "d1" dlRecEx
    (abortError "This operation was aborted") true 7
  ⟨h.1 (by decide) (by decide), (h.2.1 (by decide)).1, (h.2.1 (by decide)).2.2⟩

/-- C10: removeDownload returns false for an unknown id and leaves the map
unchanged; for any known record — regardless of status, a live downloading
record included, unlike removeProcess — it returns true, deletes the record
from the map, and triggers cancellation of the in-flight transfer exactly when
the record was still downloading. -/
theorem removeDownload_never_rejects (dls : List (String × DownloadRec)) (id : String) :
    (dls.find? (fun p => p.1 = id) = none → removeDownload dls id = (false, dls, false)) ∧
    (∀ e, dls.find? (fun p => p.1 = id) = some e →
      (removeDownload dls id).1 = true ∧
      (∀ p ∈ (removeDownload dls id).2.1, p.1 ≠ id) ∧
      ((removeDownload dls id).2.2 = true ↔ e.2.status = DownloadStatus.downloading)) := by
  constructor
  · intro h
    unfold removeDownload
    rw [h]
  · intro e he
    unfold removeDownload
    simp only [he]
    refine ⟨by trivial, ?_, by simp⟩
    intro p hp
    have hp2 : p ∈ dls.filter (fun p => ¬ p.1 = id) := hp
    have := List.mem_filter.1 hp2
    simpa using this.2

/-- Witness for C10: removing a concrete record that is still downloading
succeeds and triggers cancellation. -/
theorem removeDownload_never_rejects_witness :
    (removeDownload [("d1", dlRecEx)] "d1").1 = true ∧
    (removeDownload [("d1", dlRecEx)] "d1").2.2 = true :=
  have h := (removeDownload_never_rejects [("d1", dlRecEx)] "d1").2 ("d1", dlRecEx) (by decide)
  ⟨h.1, h.2.2.2 (by decide)⟩
